import Mathlib

set_option maxRecDepth 100000

/-!
Verification of the HTTP Digest Access Authentication core of libmicrohttpd
(`src/microhttpd/digestauth.c`) against its natural-language specification.

Conventions of the shallow embedding:
* C byte strings are `List Nat` (each element a byte value `< 256`).
* Machine integers are `Nat` with explicit `% 2^w` where C wrap-around
  matters (`uint64_t`, `uint32_t`, 48-bit trimmed timestamps).  The C
  bitmask `value & ((1 << 48) - 1)` is written `% 2^48`.
* Fallible operations return `Option`/`Except`.
* The cryptographic hash primitives, the daemon-provided URL-unescape
  callback and the request-header argument matching (all out-of-scope
  collaborators of the core, per the specification) are abstract function
  parameters.
-/

/-- REUSE_TIMEOUT (seconds), digestauth.c line 55. -/
def REUSE_TIMEOUT : Nat := 30

/-- TIMESTAMP_BIN_SIZE: 48 bit value in bytes, digestauth.c line 67. -/
def TIMESTAMP_BIN_SIZE : Nat := 6

/-- TRIM_TO_TIMESTAMP: trim a uint64 value to the low 48 bits
(`value & ((UINT64_C(1) << 48) - 1)`), digestauth.c line 73. -/
def TRIM_TO_TIMESTAMP (value : Nat) : Nat := value % 2 ^ 48

/-- TIMESTAMP_CHARS_LEN: the printed timestamp size in chars, digestauth.c line 80. -/
def TIMESTAMP_CHARS_LEN : Nat := TIMESTAMP_BIN_SIZE * 2

/-- NONCE_STD_LEN: standard server nonce length, digestauth.c line 88. -/
def NONCE_STD_LEN (digest_size : Nat) : Nat := digest_size * 2 + TIMESTAMP_CHARS_LEN

/-- MD5 digest size in bytes (md5.h). -/
def MD5_DIGEST_SIZE : Nat := 16

/-- SHA-256 digest size in bytes (sha256.h). -/
def SHA256_DIGEST_SIZE : Nat := 32

/-- MAX_DIGEST, digestauth.c line 96. -/
def MAX_DIGEST : Nat := SHA256_DIGEST_SIZE

/-- Modelled from the spec: `MAX_DIGEST_NONCE_LENGTH` is defined in internal.h,
which is not part of the sources; per the data model (invariants I1/I2) the
slot buffer holds nonces of the largest length class `2*D + 12` with `D` the
SHA-256 digest size, so the maximum nonce length is `NONCE_STD_LEN MAX_DIGEST`. -/
def MAX_DIGEST_NONCE_LENGTH : Nat := NONCE_STD_LEN MAX_DIGEST

/-- MAX_AUTH_RESPONSE_LENGTH, digestauth.c line 137. -/
def MAX_AUTH_RESPONSE_LENGTH : Nat := 256

/-- Modelled from the spec: `MAX_CLIENT_NONCE_LENGTH` is defined in internal.h,
which is not part of the sources; the specification (§4.6 step 7) bounds the
cnonce to 128 bytes and the code rejects `sizeof(cnonce) <= len`, so the
buffer size is 129. -/
def MAX_CLIENT_NONCE_LENGTH : Nat := 129

/-- Modelled from the spec: `_MHD_AUTH_DIGEST_MAX_PARAM_SIZE` is defined
outside the sources; the specification (§4.4) caps unquoted parameters at
`MAX_PARAM = 65 536` bytes. -/
def _MHD_AUTH_DIGEST_MAX_PARAM_SIZE : Nat := 65536

/-- UINT64_MAX as a natural number. -/
def UINT64_MAX : Nat := 2 ^ 64 - 1

/-- Wrap-around subtraction of two `uint64_t` values (both `< 2^64`). -/
def usub64 (a b : Nat) : Nat := (a + (2 ^ 64 - b % 2 ^ 64)) % 2 ^ 64

/-- Character test for hexadecimal US-ASCII digits (0-9, A-F, a-f). -/
def isHexChar (c : Nat) : Prop :=
  (48 ≤ c ∧ c ≤ 57) ∨ (65 ≤ c ∧ c ≤ 70) ∨ (97 ≤ c ∧ c ≤ 102)

instance (c : Nat) : Decidable (isHexChar c) := by
  unfold isHexChar; infer_instance

/-- Numeric value of a hexadecimal US-ASCII digit. -/
def hexCharVal (c : Nat) : Nat :=
  if c ≤ 57 then c - 48 else if c ≤ 70 then c - 55 else c - 87

/-- One step of the hexadecimal string-to-number conversion loop. -/
def strxGo : List Nat → Nat → Nat → Nat × Nat
  | [], cnt, val => (cnt, val)
  | c :: rest, cnt, val =>
    if isHexChar c then
      let v := val * 16 + hexCharVal c
      if UINT64_MAX < v then (0, 0) else strxGo rest (cnt + 1) v
    else (cnt, val)

/-- Modelled from the spec: the implementation of `MHD_strx_to_uint64_n_`
(mhd_str.c) is not part of the sources; this follows its contract in
mhd_str.h: convert not more than `maxlen` hexadecimal US-ASCII digits to a
uint64 number, stopping at the first non-digit character or after `maxlen`
digits; the result is the number of characters processed (zero if no digit is
found or the value overflows uint64) paired with the converted value. -/
def MHD_strx_to_uint64_n_ (str : List Nat) (maxlen : Nat) : Nat × Nat :=
  strxGo (str.take maxlen) 0 0

/-- Lowercase hexadecimal digit for a 4-bit value. -/
def hexDigitChar (v : Nat) : Nat := if v < 10 then 48 + v else 87 + v

/-- Modelled from the spec: the implementation of `MHD_bin_to_hex` (mhd_str.c)
is not part of the sources; this follows its contract in mhd_str.h: convert
binary data to lower-case hexadecimal digits, two characters per byte. -/
def MHD_bin_to_hex (bin : List Nat) : List Nat :=
  (bin.map (fun b => [hexDigitChar (b / 16), hexDigitChar (b % 16)])).flatten

/-- Length of a zero-terminated C string held in a buffer: the index of the
first zero byte (bytes past the end of the modelled list read as zero). -/
def cstrlen (buf : List Nat) : Nat := (buf.takeWhile (fun c => c ≠ 0)).length

/-- Bytes of a zero-terminated C string held in a buffer (up to the first
zero byte). -/
def cstr (buf : List Nat) : List Nat := buf.takeWhile (fun c => c ≠ 0)

/-- get_nonce_timestamp, digestauth.c lines 659-677: extract the timestamp
from the last `TIMESTAMP_CHARS_LEN` characters of a nonce whose length is one
of the two standard classes.  `noncelen = 0` means autodetect via `strlen`. -/
def get_nonce_timestamp (nonce : List Nat) (noncelen : Nat) : Option Nat :=
  let len := if noncelen = 0 then cstrlen nonce else noncelen
  if len ≠ NONCE_STD_LEN SHA256_DIGEST_SIZE ∧ len ≠ NONCE_STD_LEN MD5_DIGEST_SIZE then
    none
  else
    let p := MHD_strx_to_uint64_n_ (nonce.drop (len - TIMESTAMP_CHARS_LEN))
      TIMESTAMP_CHARS_LEN
    if p.1 ≠ TIMESTAMP_CHARS_LEN then none else some p.2

/-- Rotate a 32-bit value left by `n` (0 < n < 32) bits (`_MHD_ROTL32`). -/
def ROTL32 (x n : Nat) : Nat := ((x <<< n) % 2 ^ 32) ||| (x >>> (32 - n))

/-- fast_simple_hash, digestauth.c lines 687-704. -/
def fast_simple_hash (data : List Nat) : Nat :=
  match data with
  | [] => 0
  | d :: rest => rest.foldl (fun hash c => (ROTL32 hash 7) ^^^ c) d

/-- get_nonce_nc_idx, digestauth.c lines 715-723. -/
def get_nonce_nc_idx (arr_size : Nat) (nonce : List Nat) (noncelen : Nat) : Nat :=
  fast_simple_hash (nonce.take noncelen) % arr_size

/-- The result of the nonce-nc map array check (`enum MHD_CheckNonceNC_`). -/
inductive MHD_CheckNonceNC where
  | OK
  | STALE
  | WRONG
deriving DecidableEq

/-- One slot of the nonce-nc map array (`struct MHD_NonceNc`, internal.h):
the nonce buffer content, the highest seen nonce counter and the bitmask of
previously used lower counters.  The buffer is modelled as a byte list; reads
past its end yield zero (the C buffer tail is zero-filled). -/
structure MHD_NonceNc where
  nonce : List Nat
  nc : Nat
  nmask : Nat
deriving DecidableEq

/-- The empty (never used) slot. -/
def emptySlot : MHD_NonceNc := ⟨[], 0, 0⟩

/-- The daemon state consulted by the nonce-nc check: the configured table
size and the slot array. -/
structure DaemonNNC where
  nonce_nc_size : Nat
  nnc : List MHD_NonceNc
deriving DecidableEq

/-- Byte read from a slot's nonce buffer. -/
def slotByte (nn : MHD_NonceNc) (i : Nat) : Nat := nn.nonce.getD i 0

/-- The slot index consulted by check_nonce_nc for a given client nonce
(`get_nonce_nc_idx (mod, nonce, noncelen)` at digestauth.c line 765). -/
def nncIdx (d : DaemonNNC) (nonce : List Nat) (noncelen : Nat) : Nat :=
  get_nonce_nc_idx d.nonce_nc_size nonce noncelen

/-- The slot consulted by check_nonce_nc for a given client nonce
(`nn = &daemon->nnc[get_nonce_nc_idx (...)]` at digestauth.c line 765). -/
def slotOf (d : DaemonNNC) (nonce : List Nat) (noncelen : Nat) : MHD_NonceNc :=
  d.nnc.getD (nncIdx d nonce noncelen) emptySlot

/-- The new nmask produced by the `nc > slot.nc` branch of check_nonce_nc,
digestauth.c lines 820-832: shift left by the jump (a `uint64_t` shift, hence
`% 2^64`) and record the old counter in bit `jump - 1`; a jump of exactly 64
keeps only bit 63; a larger jump clears the mask. -/
def bumpMask (nmask jump_size : Nat) : Nat :=
  if jump_size < 64 then
    ((nmask <<< jump_size) % 2 ^ 64) ||| (1 <<< (jump_size - 1))
  else if jump_size = 64 then
    1 <<< 63
  else
    0

/-- check_nonce_nc, digestauth.c lines 765-855: the body after the guard
checks, operating on the slot selected by `get_nonce_nc_idx`.  Returns the
check result together with the updated daemon state. -/
def check_nonce_nc_slot (d : DaemonNNC) (nonce : List Nat) (noncelen : Nat)
    (nonce_time : Nat) (nc : Nat) : MHD_CheckNonceNC × DaemonNNC :=
  let idx := nncIdx d nonce noncelen
  let nn := slotOf d nonce noncelen
  if ¬ (nn.nonce.take noncelen = nonce.take noncelen) ∨ slotByte nn noncelen ≠ 0 then
    -- the nonce in the slot does not match the nonce from the client
    if slotByte nn 0 = 0 then
      (.WRONG, d)
    else if slotByte nn noncelen ≠ 0 then
      (.STALE, d)
    else
      match get_nonce_timestamp nn.nonce 0 with
      | none => (.STALE, d)
      | some slot_ts =>
        let ts_diff := TRIM_TO_TIMESTAMP (usub64 nonce_time slot_ts)
        if REUSE_TIMEOUT * 1000 ≥ ts_diff then
          (.STALE, d)
        else if TRIM_TO_TIMESTAMP UINT64_MAX / 2 ≥ ts_diff then
          (.STALE, d)
        else
          (.WRONG, d)
  else if nn.nc < nc then
    (.OK, { d with nnc :=
      (d.nnc.set idx { nn with nc := nc, nmask := bumpMask nn.nmask (nc - nn.nc) }) })
  else if nc < nn.nc then
    if nc + 64 ≥ nn.nc ∧ (1 <<< (nn.nc - nc - 1)) &&& nn.nmask = 0 then
      (.OK, { d with nnc :=
        (d.nnc.set idx { nn with nmask := nn.nmask ||| (1 <<< (nn.nc - nc - 1)) }) })
    else
      (.STALE, d)
  else
    (.STALE, d)

/-- check_nonce_nc, digestauth.c lines 739-858: guard checks (nonce length
cap, disabled table, nc overflow guard) followed by the slot check. -/
def check_nonce_nc (d : DaemonNNC) (nonce : List Nat) (noncelen : Nat)
    (nonce_time : Nat) (nc : Nat) : MHD_CheckNonceNC × DaemonNNC :=
  if MAX_DIGEST_NONCE_LENGTH < noncelen then
    (.WRONG, d)
  else if d.nonce_nc_size = 0 then
    (.STALE, d)
  else if UINT64_MAX - 64 ≤ nc then
    (.STALE, d)
  else
    check_nonce_nc_slot d nonce noncelen nonce_time nc


/-- The 48-bit big-endian timestamp bytes built by calculate_nonce,
digestauth.c lines 945-950 (`(uint8_t) (nonce_time >> (8 * (6 - 1 - i)))`). -/
def ts_be48 (nonce_time : Nat) : List Nat :=
  [(nonce_time >>> 40) % 256, (nonce_time >>> 32) % 256, (nonce_time >>> 24) % 256,
   (nonce_time >>> 16) % 256, (nonce_time >>> 8) % 256, nonce_time % 256]

/-- The byte sequence fed to the hash by calculate_nonce, digestauth.c lines
939-979: `ts_be48 ":" method ":" seed ":" uri ":" realm`.  `method` and `uri`
are read as zero-terminated C strings (`strlen`), the seed and the realm by
explicit length. -/
def nonce_msg (nonce_time : Nat) (method rnd uri realm : List Nat) : List Nat :=
  ts_be48 nonce_time ++ [58] ++ cstr method ++ [58] ++ rnd ++ [58] ++
    cstr uri ++ [58] ++ realm

/-- calculate_nonce, digestauth.c lines 926-986: hex of the digest of
`nonce_msg` (`digest_size` bytes) followed by hex of the timestamp bytes.
The hash `H` is an abstract parameter (the digest engines are out-of-scope
collaborators). -/
def calculate_nonce (H : List Nat → List Nat) (digest_size : Nat)
    (nonce_time : Nat) (method rnd uri realm : List Nat) : List Nat :=
  MHD_bin_to_hex ((H (nonce_msg nonce_time method rnd uri realm)).take digest_size) ++
    MHD_bin_to_hex (ts_be48 nonce_time)

/-- Modelled from the spec: the implementation of `MHD_str_unquote`
(mhd_str.c) is not part of the sources; this follows its contract in mhd_str.h
and §4.4 of the specification: a backslash escapes the next byte literally; a
trailing unescaped backslash makes the input invalid (`none`, the C function
returns zero characters). -/
def str_unquote : List Nat → Option (List Nat)
  | [] => some []
  | 92 :: [] => none
  | 92 :: c :: rest => (str_unquote rest).map (fun l => c :: l)
  | c :: rest => (str_unquote rest).map (fun l => c :: l)

/-- The value produced by `MHD_str_unquote` as used by get_unqouted_param:
on a broken quoted string the C function reports zero characters written,
so the resulting value is empty. -/
def MHD_str_unquote (quoted : List Nat) : List Nat := (str_unquote quoted).getD []

/-- Modelled from the spec: the implementation of `MHD_str_equal_quoted_bin_n`
(mhd_str.c) is not part of the sources; this follows its contract in
mhd_str.h: false if the quoted form is broken, otherwise equality after
unquoting the first string. -/
def MHD_str_equal_quoted_bin_n (quoted unquoted : List Nat) : Bool :=
  match str_unquote quoted with
  | none => false
  | some l => decide (l = unquoted)

/-- One digest-authorization request parameter (`struct MHD_RqDAuthParam`):
the raw value bytes (or `none` when the parameter is absent) and whether the
value was a quoted string. -/
structure MHD_RqDAuthParam where
  value : Option (List Nat)
  quoted : Bool

/-- The parsed digest-authorization parameter set (`struct MHD_RqDAuth`). -/
structure MHD_RqDAuth where
  nonce : MHD_RqDAuthParam
  cnonce : MHD_RqDAuthParam
  qop : MHD_RqDAuthParam
  realm : MHD_RqDAuthParam
  username : MHD_RqDAuthParam
  uri : MHD_RqDAuthParam
  response : MHD_RqDAuthParam
  nc : MHD_RqDAuthParam

/-- The result of parameter unquoting (`enum _MHD_GetUnqResult`),
digestauth.c lines 1300-1307, with the produced value attached.  An absent
value stands for NO_STRING; EMPTY carries the empty value; out-of-memory is
not modelled (the allocator is an out-of-scope collaborator assumed to
succeed). -/
inductive GetUnqResult where
  | noString
  | empty
  | nonEmpty (value : List Nat)
  | tooLarge

/-- get_unqouted_param, digestauth.c lines 1319-1374, at value level (the
stack/heap scratch buffer reuse does not affect the produced bytes): absent
parameter reports NO_STRING; an unquoted value is returned as-is; a quoted
value is size-capped and unquoted. -/
def get_unqouted_param (param : MHD_RqDAuthParam) : GetUnqResult :=
  match param.value with
  | none => .noString
  | some v =>
    if ¬ param.quoted then
      if v.length = 0 then .empty else .nonEmpty v
    else if v.length > _MHD_AUTH_DIGEST_MAX_PARAM_SIZE then
      .tooLarge
    else
      .nonEmpty (MHD_str_unquote v)

/-- is_param_equal, digestauth.c lines 1385-1398: quoted-aware byte equality
of a parameter against a server-side string. -/
def is_param_equal (param : MHD_RqDAuthParam) (str : List Nat) : Bool :=
  match param.value with
  | none => false
  | some v =>
    if param.quoted then MHD_str_equal_quoted_bin_n v str
    else decide (v = str)

/-- The verification result (`enum MHD_DigestAuthResult`, digestauth.h). -/
inductive MHD_DigestAuthResult where
  | MHD_DAUTH_OK
  | MHD_DAUTH_ERROR
  | MHD_DAUTH_WRONG_HEADER
  | MHD_DAUTH_WRONG_USERNAME
  | MHD_DAUTH_WRONG_REALM
  | MHD_DAUTH_NONCE_WRONG
  | MHD_DAUTH_NONCE_STALE
  | MHD_DAUTH_RESPONSE_WRONG
  | MHD_DAUTH_WRONG_URI
deriving DecidableEq

/-- The qop acceptance test of the verifier, digestauth.c lines 1630-1631:
`(0 != strcmp (qop, "auth")) && (0 != strcmp (qop, ""))` rejects; the copied
buffer is zero-terminated, so `strcmp` compares the bytes before the first
zero byte of the unquoted value. -/
def qop_is_supported (qop : List Nat) : Bool :=
  decide (cstr qop = [97, 117, 116, 104]) || decide (cstr qop = [])

/-- The first-level nonce validity gate of the verifier, digestauth.c line
1536: `TRIM_TO_TIMESTAMP (t - nonce_time) > (nonce_timeout * 1000)`.  The
product `nonce_timeout * 1000` is computed in the C type `unsigned int`
(32 bits on all supported platforms) and therefore wraps modulo `2^32`. -/
def nonce_too_old (t nonce_time nonce_timeout : Nat) : Bool :=
  decide (TRIM_TO_TIMESTAMP (usub64 t nonce_time) > (nonce_timeout * 1000) % 2 ^ 32)

/-- digest_calc_response, digestauth.c lines 550-634: H(A2) from method and
uri, then the response digest per RFC 2617/7616.  `ha1`, `nonce`,
`noncecount`, `cnonce`, `qop` and `method` are read as C strings or by the
digest length, exactly as the source reads them. -/
def digest_calc_response (H : List Nat → List Nat) (digest_size : Nat)
    (ha1 nonce noncecount cnonce qop method uri : List Nat) : List Nat :=
  let ha2hex := MHD_bin_to_hex ((H (cstr method ++ [58] ++ uri)).take digest_size)
  let msg := ha1.take (digest_size * 2) ++ [58] ++ cstr nonce ++ [58] ++
    (if cstr qop ≠ [] then
      cstr noncecount ++ [58] ++ cstr cnonce ++ [58] ++ cstr qop ++ [58]
     else []) ++
    ha2hex.take (digest_size * 2)
  MHD_bin_to_hex ((H msg).take digest_size)

/-- The environment of one verification call: the abstract hash engine, the
connection data, the daemon configuration and the server-held credentials.
`unescape` models the daemon's URL-unescape callback and `argsMatch` models
check_argument_match against the connection's parsed GET arguments (both
out-of-scope collaborators). -/
structure VerifyEnv where
  H : List Nat → List Nat
  digest_size : Nat
  method : List Nat
  url : List Nat
  argsMatch : List Nat → Bool
  unescape : List Nat → List Nat
  rand : List Nat
  realm : List Nat
  username : List Nat
  password : List Nat
  digest : Option (List Nat)
  nonce_timeout : Nat

/-- Data carried out of the verification steps preceding the expiry gate:
the unquoted client nonce and its embedded timestamp. -/
structure PreTsData where
  nonce_v : List Nat
  nonce_time : Nat

/-- Data carried out of the parameter-extraction steps that follow the
expiry gate and precede the nonce-nc table check. -/
structure PostTsData where
  noncehashexp : List Nat
  cnonce : List Nat
  qop : List Nat
  ncs : List Nat
  nci : Nat
  response : List Nat

/-- digest_auth_check_all, digestauth.c lines 1471-1529: username check,
realm check, nonce unquoting and timestamp extraction (the steps before the
first-level timestamp gate). -/
def stage_pre_ts (env : VerifyEnv) (params : MHD_RqDAuth) :
    Except MHD_DigestAuthResult PreTsData :=
  match params.username.value with
  | none => .error .MHD_DAUTH_WRONG_HEADER
  | some _ =>
    if ¬ is_param_equal params.username env.username then
      .error .MHD_DAUTH_WRONG_USERNAME
    else
      match params.realm.value with
      | none => .error .MHD_DAUTH_WRONG_HEADER
      | some _ =>
        if ¬ is_param_equal params.realm env.realm then
          .error .MHD_DAUTH_WRONG_REALM
        else
          match get_unqouted_param params.nonce with
          | .noString => .error .MHD_DAUTH_WRONG_HEADER
          | .empty => .error .MHD_DAUTH_NONCE_WRONG
          | .tooLarge => .error .MHD_DAUTH_WRONG_HEADER
          | .nonEmpty v =>
            match get_nonce_timestamp v v.length with
            | none => .error .MHD_DAUTH_NONCE_WRONG
            | some ts => .ok ⟨v, ts⟩

/-- digest_auth_check_all, digestauth.c lines 1543-1720: nonce recomputation
and comparison, then extraction of cnonce, qop, nc and response (the steps
between the timestamp gate and the nonce-nc table check).  The comparison at
lines 1561-1562 (`strncmp` over the client nonce length plus the terminator
check) amounts to byte equality with the recomputed nonce, whose characters
are all non-zero hexadecimal digits. -/
def stage_post_ts (env : VerifyEnv) (params : MHD_RqDAuth) (pd : PreTsData) :
    Except MHD_DigestAuthResult PostTsData :=
  let noncehashexp := calculate_nonce env.H env.digest_size pd.nonce_time
    env.method env.rand env.url env.realm
  if ¬ (pd.nonce_v = noncehashexp) then
    .error .MHD_DAUTH_NONCE_WRONG
  else
    match get_unqouted_param params.cnonce with
    | .noString => .error .MHD_DAUTH_WRONG_HEADER
    | .empty => .error .MHD_DAUTH_WRONG_HEADER
    | .tooLarge => .error .MHD_DAUTH_WRONG_HEADER
    | .nonEmpty cnonce =>
      if MAX_CLIENT_NONCE_LENGTH ≤ cnonce.length then
        .error .MHD_DAUTH_ERROR
      else
        match get_unqouted_param params.qop with
        | .noString => .error .MHD_DAUTH_WRONG_HEADER
        | .empty => .error .MHD_DAUTH_WRONG_HEADER
        | .tooLarge => .error .MHD_DAUTH_WRONG_HEADER
        | .nonEmpty qop =>
          if 15 ≤ qop.length then
            .error .MHD_DAUTH_ERROR
          else if ¬ qop_is_supported qop then
            .error .MHD_DAUTH_WRONG_HEADER
          else
            match get_unqouted_param params.nc with
            | .noString => .error .MHD_DAUTH_WRONG_HEADER
            | .empty => .error .MHD_DAUTH_WRONG_HEADER
            | .tooLarge => .error .MHD_DAUTH_WRONG_HEADER
            | .nonEmpty ncs =>
              if 20 ≤ ncs.length then
                .error .MHD_DAUTH_ERROR
              else
                let p := MHD_strx_to_uint64_n_ ncs ncs.length
                if p.1 ≠ ncs.length then
                  .error .MHD_DAUTH_WRONG_HEADER
                else if p.2 = 0 then
                  .error .MHD_DAUTH_WRONG_HEADER
                else
                  match get_unqouted_param params.response with
                  | .noString => .error .MHD_DAUTH_WRONG_HEADER
                  | .empty => .error .MHD_DAUTH_WRONG_HEADER
                  | .tooLarge => .error .MHD_DAUTH_WRONG_HEADER
                  | .nonEmpty response =>
                    if MAX_AUTH_RESPONSE_LENGTH ≤ response.length then
                      .error .MHD_DAUTH_ERROR
                    else
                      .ok ⟨noncehashexp, cnonce, qop, ncs, p.2, response⟩

/-- digest_auth_check_all, digestauth.c lines 1760-1901: the steps after a
successful nonce-nc check: uri extraction, H(A1) and expected-response
computation, uri comparison against the connection URL (query suffix
stripped, unescaped via the daemon callback), argument cross-check, and the
final response comparison. -/
def stage_uri_response (env : VerifyEnv) (params : MHD_RqDAuth)
    (gd : PostTsData) : MHD_DigestAuthResult :=
  match get_unqouted_param params.uri with
  | .noString => .MHD_DAUTH_WRONG_HEADER
  | .empty => .MHD_DAUTH_WRONG_HEADER
  | .tooLarge => .MHD_DAUTH_WRONG_HEADER
  | .nonEmpty u =>
    let ha1bin :=
      match env.digest with
      | some dg => dg
      | none => env.H (env.username ++ [58] ++ env.realm ++ [58] ++ cstr env.password)
    let ha1 := MHD_bin_to_hex (ha1bin.take env.digest_size)
    let respexp := digest_calc_response env.H env.digest_size ha1 gd.noncehashexp
      gd.ncs gd.cnonce gd.qop env.method u
    let uriPath := u.takeWhile (fun c => c ≠ 63)
    if ¬ (cstr (env.unescape (cstr uriPath)) = env.url) then
      .MHD_DAUTH_WRONG_URI
    else
      let args := if uriPath.length < u.length then cstr (u.drop (uriPath.length + 1))
                  else []
      if ¬ env.argsMatch args then
        .MHD_DAUTH_WRONG_URI
      else if cstr gd.response = respexp then
        .MHD_DAUTH_OK
      else
        .MHD_DAUTH_RESPONSE_WRONG

/-- digest_auth_check_all, digestauth.c lines 1420-1913: the full ordered
verification pipeline.  `now` is the value of the monotonic millisecond
clock (an out-of-scope collaborator).  Returns the verification result and
the updated nonce-nc table state. -/
def digest_auth_check_all (env : VerifyEnv) (params : Option MHD_RqDAuth)
    (d : DaemonNNC) (now : Nat) : MHD_DigestAuthResult × DaemonNNC :=
  match params with
  | none => (.MHD_DAUTH_WRONG_HEADER, d)
  | some ps =>
    match stage_pre_ts env ps with
    | .error r => (r, d)
    | .ok pd =>
      if nonce_too_old now pd.nonce_time env.nonce_timeout then
        (.MHD_DAUTH_NONCE_STALE, d)
      else
        match stage_post_ts env ps pd with
        | .error r => (r, d)
        | .ok gd =>
          let chk := check_nonce_nc d gd.noncehashexp
            (NONCE_STD_LEN env.digest_size) pd.nonce_time gd.nci
          match chk.1 with
          | .STALE => (.MHD_DAUTH_NONCE_STALE, chk.2)
          | .WRONG => (.MHD_DAUTH_NONCE_WRONG, chk.2)
          | .OK => (stage_uri_response env ps gd, chk.2)

/-- The daemon state produced by the `nc > slot.nc` branch of
check_nonce_nc (digestauth.c lines 818-834): the consulted slot gets the new
counter and the shifted mask. -/
def bumpState (d : DaemonNNC) (n : List Nat) (l nc : Nat) : DaemonNNC :=
  ⟨d.nonce_nc_size,
    d.nnc.set (nncIdx d n l)
      ⟨(slotOf d n l).nonce, nc, bumpMask (slotOf d n l).nmask (nc - (slotOf d n l).nc)⟩⟩

/-- The daemon state produced by the accepted out-of-order branch of
check_nonce_nc (digestauth.c lines 836-846): the consulted slot gets the bit
for `nc` set in its mask. -/
def setBitState (d : DaemonNNC) (n : List Nat) (l nc : Nat) : DaemonNNC :=
  ⟨d.nonce_nc_size,
    d.nnc.set (nncIdx d n l)
      ⟨(slotOf d n l).nonce, (slotOf d n l).nc,
        (slotOf d n l).nmask ||| (1 <<< ((slotOf d n l).nc - nc - 1))⟩⟩

/-- The slot holds exactly the client's nonce: the first `noncelen` bytes
agree and the slot buffer is zero-terminated right after them (the negation
of the mismatch condition at digestauth.c lines 771-772). -/
def slotMatches (nn : MHD_NonceNc) (nonce : List Nat) (noncelen : Nat) : Prop :=
  nn.nonce.take noncelen = nonce.take noncelen ∧ slotByte nn noncelen = 0

instance (nn : MHD_NonceNc) (nonce : List Nat) (noncelen : Nat) :
    Decidable (slotMatches nn nonce noncelen) := by
  unfold slotMatches; infer_instance

/-- The nonce-count `nc` has been consumed for the nonce stored in its slot:
the slot still holds the nonce, and `nc` is either the slot's current
counter, more than 64 behind it, or marked in the sliding bitmask. -/
def consumedNc (d : DaemonNNC) (nonce : List Nat) (noncelen nc : Nat) : Prop :=
  slotMatches (slotOf d nonce noncelen) nonce noncelen ∧
  nc ≤ (slotOf d nonce noncelen).nc ∧
  (nc = (slotOf d nonce noncelen).nc ∨
    64 < (slotOf d nonce noncelen).nc - nc ∨
    (slotOf d nonce noncelen).nmask.testBit ((slotOf d nonce noncelen).nc - nc - 1) = true)

/-- Fold a sequence of nonce-nc checks (each a client nonce with its length,
timestamp and nonce counter) over the daemon state.  This models a series of
verification calls with no intervening admission. -/
def applyChecks (d : DaemonNNC) : List (List Nat × Nat × Nat × Nat) → DaemonNNC
  | [] => d
  | (n, l, t, nc) :: rest => applyChecks (check_nonce_nc d n l t nc).2 rest

/-- Lowercase-hexadecimal US-ASCII character. -/
def isLowerHexChar (c : Nat) : Prop := (48 ≤ c ∧ c ≤ 57) ∨ (97 ≤ c ∧ c ≤ 102)

instance (c : Nat) : Decidable (isLowerHexChar c) := by
  unfold isLowerHexChar; infer_instance

/-- Big-endian value of a byte sequence. -/
def beBytesVal (bs : List Nat) : Nat := bs.foldl (fun v b => v * 256 + b) 0

/-- Fixture: slot nonce of a well-formed MD5-class nonce with embedded
timestamp 100000 ms, stored zero-terminated. -/
def c1_slot_nonce : List Nat :=
  List.replicate 32 97 ++ [48, 48, 48, 48, 48, 48, 48, 49, 56, 54, 97, 48] ++ [0]

/-- Fixture: a different well-formed MD5-class client nonce with embedded
timestamp 50000 ms. -/
def c1_client_nonce : List Nat :=
  List.replicate 32 98 ++ [48, 48, 48, 48, 48, 48, 48, 48, 99, 51, 53, 48]

/-- Fixture: single-slot table whose slot holds `c1_slot_nonce`. -/
def c1_daemon : DaemonNNC := ⟨1, [⟨c1_slot_nonce, 0, 0⟩]⟩

/-- Fixture: a well-formed MD5-class nonce with embedded timestamp 1 ms. -/
def c2_nonce : List Nat :=
  List.replicate 32 99 ++ [48, 48, 48, 48, 48, 48, 48, 48, 48, 48, 48, 49]

/-- Fixture: single-slot table holding `c2_nonce` with `nc = 1`, `nmask = 0`. -/
def c2_daemon : DaemonNNC := ⟨1, [⟨c2_nonce ++ [0], 1, 0⟩]⟩

/-- Fixture: a well-formed MD5-class nonce (timestamp 2 ms) for the C2
witness. -/
def c2w_nonce : List Nat :=
  List.replicate 32 101 ++ [48, 48, 48, 48, 48, 48, 48, 48, 48, 48, 48, 50]

/-- Fixture: single-slot table holding `c2w_nonce` with `nc = 1`. -/
def c2w_daemon : DaemonNNC := ⟨1, [⟨c2w_nonce ++ [0], 1, 0⟩]⟩

/-- Fixture: a well-formed MD5-class nonce (timestamp 3 ms). -/
def c3_nonce : List Nat :=
  List.replicate 32 102 ++ [48, 48, 48, 48, 48, 48, 48, 48, 48, 48, 48, 51]

/-- Fixture: single-slot table holding `c3_nonce` with `nc = 0`. -/
def c3_daemon : DaemonNNC := ⟨1, [⟨c3_nonce ++ [0], 0, 0⟩]⟩

/-- Fixture: a well-formed MD5-class nonce (timestamp 4 ms). -/
def c5_nonce : List Nat :=
  List.replicate 32 103 ++ [48, 48, 48, 48, 48, 48, 48, 48, 48, 48, 48, 52]

/-- Fixture: single-slot table holding `c5_nonce` with `nc = 5`, empty mask. -/
def c5_daemon : DaemonNNC := ⟨1, [⟨c5_nonce ++ [0], 5, 0⟩]⟩

/-- Fixture: the abstract hash used by the C9 witness (constant digest). -/
def c9_H : List Nat → List Nat := fun _ => List.replicate 16 1

/-- Fixture: the nonce the C9 witness daemon issued at timestamp 5 ms
(hex of the constant digest followed by the timestamp characters). -/
def c9_nonce : List Nat :=
  MHD_bin_to_hex (List.replicate 16 1) ++
    [48, 48, 48, 48, 48, 48, 48, 48, 48, 48, 48, 53]

/-- Fixture: verification environment for the C9 witness: MD5-sized abstract
hash, method GET, connection URL `/b`, identity unescape, realm `r`,
username `u`, password `p`, timeout 60 s. -/
def c9_env : VerifyEnv :=
  ⟨c9_H, 16, [71, 69, 84], [47, 98], fun _ => true, fun u => u, [],
    [114], [117], [112], none, 60⟩

/-- Fixture: request parameters for the C9 witness: all fields unquoted,
nonce `c9_nonce`, `nc = 00000001`, qop `auth`, uri `/a` (mismatching the
connection URL `/b`). -/
def c9_params : MHD_RqDAuth :=
  ⟨⟨some c9_nonce, false⟩, ⟨some [99], false⟩, ⟨some [97, 117, 116, 104], false⟩,
    ⟨some [114], false⟩, ⟨some [117], false⟩, ⟨some [47, 97], false⟩,
    ⟨some [120], false⟩, ⟨some [48, 48, 48, 48, 48, 48, 48, 49], false⟩⟩

/-- Fixture: single-slot table for the C9 witness holding the freshly
admitted `c9_nonce`. -/
def c9_daemon : DaemonNNC := ⟨1, [⟨c9_nonce ++ [0], 0, 0⟩]⟩

theorem one_shiftLeft_and_eq_zero_iff (k m : Nat) :
    (1 <<< k) &&& m = 0 ↔ m.testBit k = false := by
  rw [Nat.one_shiftLeft]
  constructor
  · intro h
    have h2 := congrArg (fun x => Nat.testBit x k) h
    simp only [Nat.testBit_and, Nat.testBit_two_pow_self, Bool.true_and,
      Nat.zero_testBit] at h2
    exact h2
  · intro h
    apply Nat.eq_of_testBit_eq
    intro i
    rw [Nat.testBit_and, Nat.zero_testBit]
    by_cases hik : k = i
    · subst hik; simp [h]
    · simp [Nat.testBit_two_pow_of_ne hik]

/-- C1: in the different-nonce branch of check_nonce_nc, for a well-formed
slot nonce the claim states that a wrapped timestamp difference in the upper
half of the 48-bit range (client nonce older than the slot nonce) yields
STALE and a difference above REUSE_TIMEOUT in the lower half (client nonce
newer) yields WRONG.  The code returns the opposite: with the slot timestamp
100000 ms, a client nonce timestamp of 50000 ms (difference `2^48 - 50000`,
upper half) produces WRONG, and a client nonce timestamp of 200000 ms
(difference 100000, lower half, above 30000 ms) produces STALE — matching
the code's comparison `TRIM_TO_TIMESTAMP (UINT64_MAX) / 2 >= ts_diff` but
contradicting the claim and the code's own branch comments. -/
theorem c1_swapped_halves_eval :
    check_nonce_nc c1_daemon c1_client_nonce 44 50000 7 = (.WRONG, c1_daemon)
    ∧ check_nonce_nc c1_daemon c1_client_nonce 44 200000 7 = (.STALE, c1_daemon)
    ∧ TRIM_TO_TIMESTAMP (usub64 50000 100000) = 2 ^ 48 - 50000
    ∧ 2 ^ 48 - 50000 > TRIM_TO_TIMESTAMP UINT64_MAX / 2
    ∧ TRIM_TO_TIMESTAMP (usub64 200000 100000) = 100000 := by decide

/-- C2 counterexample: the claim states that if `jump = nc - slot.nc ≥ 64`
the entire nmask is cleared.  With slot.nc = 1 and client nc = 65 (jump
exactly 64) the check returns OK but the new nmask is `2^63`, not zero: the
code keeps bit 63 to record the old slot.nc (digestauth.c lines 829-830). -/
theorem c2_jump64_counterexample :
    (check_nonce_nc c2_daemon c2_nonce 44 1 65).1 = .OK
    ∧ ((check_nonce_nc c2_daemon c2_nonce 44 1 65).2.nnc.getD 0 emptySlot).nmask = 2 ^ 63
    ∧ ¬ (((check_nonce_nc c2_daemon c2_nonce 44 1 65).2.nnc.getD 0 emptySlot).nmask = 0) := by
  decide

/-- C3 counterexample: the claim states the overflow guard rejects exactly
`nc ≥ 2^64 - 64`, so `nc = 2^64 - 65` should proceed to the slot comparison
(which here would return OK).  The code's guard `nc >= UINT64_MAX - 64`
(digestauth.c line 762) already rejects `2^64 - 65` as STALE. -/
theorem c3_guard_counterexample :
    check_nonce_nc c3_daemon c3_nonce 44 3 (2 ^ 64 - 65) = (.STALE, c3_daemon)
    ∧ (check_nonce_nc_slot c3_daemon c3_nonce 44 3 (2 ^ 64 - 65)).1 = .OK
    ∧ 2 ^ 64 - 65 < 2 ^ 64 - 64 := by decide

theorem check_nonce_nc_ok_or_frame (d : DaemonNNC) (n : List Nat) (l t nc : Nat) :
    (check_nonce_nc d n l t nc).1 = .OK ∨ (check_nonce_nc d n l t nc).2 = d := by
  unfold check_nonce_nc check_nonce_nc_slot
  dsimp only
  repeat' split
  all_goals simp

theorem check_nonce_nc_eq_slot (d : DaemonNNC) (n : List Nat) (l t nc : Nat)
    (h1 : l ≤ MAX_DIGEST_NONCE_LENGTH) (h2 : d.nonce_nc_size ≠ 0)
    (h3 : nc < UINT64_MAX - 64) :
    check_nonce_nc d n l t nc = check_nonce_nc_slot d n l t nc := by
  unfold check_nonce_nc
  rw [if_neg (by omega), if_neg h2, if_neg (by omega)]

theorem check_nonce_nc_ok_guards (d : DaemonNNC) (n : List Nat) (l t nc : Nat)
    (h : (check_nonce_nc d n l t nc).1 = .OK) :
    l ≤ MAX_DIGEST_NONCE_LENGTH ∧ d.nonce_nc_size ≠ 0 ∧ nc < UINT64_MAX - 64 := by
  by_cases h1 : MAX_DIGEST_NONCE_LENGTH < l
  · exfalso; unfold check_nonce_nc at h; rw [if_pos h1] at h; simp at h
  by_cases h2 : d.nonce_nc_size = 0
  · exfalso; unfold check_nonce_nc at h; rw [if_neg h1, if_pos h2] at h; simp at h
  by_cases h3 : UINT64_MAX - 64 ≤ nc
  · exfalso; unfold check_nonce_nc at h
    rw [if_neg h1, if_neg h2, if_pos h3] at h; simp at h
  exact ⟨by omega, h2, by omega⟩

theorem check_slot_gt (d : DaemonNNC) (n : List Nat) (l t nc : Nat)
    (hmatch : slotMatches (slotOf d n l) n l)
    (hgt : (slotOf d n l).nc < nc) :
    check_nonce_nc_slot d n l t nc = (.OK, bumpState d n l nc) := by
  unfold check_nonce_nc_slot bumpState
  dsimp only
  rw [if_neg (by rintro (hc | hc); exact hc hmatch.1; exact hc hmatch.2),
    if_pos hgt]

theorem check_slot_lt_free (d : DaemonNNC) (n : List Nat) (l t nc : Nat)
    (hmatch : slotMatches (slotOf d n l) n l)
    (hlt : nc < (slotOf d n l).nc)
    (hcond : nc + 64 ≥ (slotOf d n l).nc ∧
      (1 <<< ((slotOf d n l).nc - nc - 1)) &&& (slotOf d n l).nmask = 0) :
    check_nonce_nc_slot d n l t nc = (.OK, setBitState d n l nc) := by
  unfold check_nonce_nc_slot setBitState
  dsimp only
  rw [if_neg (by rintro (hc | hc); exact hc hmatch.1; exact hc hmatch.2),
    if_neg (by omega), if_pos hlt, if_pos hcond]

theorem check_slot_lt_used (d : DaemonNNC) (n : List Nat) (l t nc : Nat)
    (hmatch : slotMatches (slotOf d n l) n l)
    (hlt : nc < (slotOf d n l).nc)
    (hcond : ¬ (nc + 64 ≥ (slotOf d n l).nc ∧
      (1 <<< ((slotOf d n l).nc - nc - 1)) &&& (slotOf d n l).nmask = 0)) :
    check_nonce_nc_slot d n l t nc = (.STALE, d) := by
  unfold check_nonce_nc_slot
  dsimp only
  rw [if_neg (by rintro (hc | hc); exact hc hmatch.1; exact hc hmatch.2),
    if_neg (by omega), if_pos hlt, if_neg hcond]

theorem check_slot_eq_nc (d : DaemonNNC) (n : List Nat) (l t nc : Nat)
    (hmatch : slotMatches (slotOf d n l) n l)
    (heq : nc = (slotOf d n l).nc) :
    check_nonce_nc_slot d n l t nc = (.STALE, d) := by
  unfold check_nonce_nc_slot
  dsimp only
  rw [if_neg (by rintro (hc | hc); exact hc hmatch.1; exact hc hmatch.2),
    if_neg (by omega), if_neg (by omega)]

theorem check_slot_ok_cases (d : DaemonNNC) (n : List Nat) (l t nc : Nat)
    (h : (check_nonce_nc_slot d n l t nc).1 = .OK) :
    slotMatches (slotOf d n l) n l ∧
    ((slotOf d n l).nc < nc ∨
      (nc < (slotOf d n l).nc ∧ nc + 64 ≥ (slotOf d n l).nc ∧
        (1 <<< ((slotOf d n l).nc - nc - 1)) &&& (slotOf d n l).nmask = 0)) := by
  unfold check_nonce_nc_slot at h
  dsimp only at h
  split at h
  · repeat' split at h
    all_goals simp_all
  · next hmis =>
    rw [not_or, not_not, not_not] at hmis
    refine ⟨⟨hmis.1, hmis.2⟩, ?_⟩
    split at h
    · left; assumption
    · split at h
      · next hngt hlt =>
        split at h
        · next hc => exact Or.inr ⟨hlt, hc.1, hc.2⟩
        · simp at h
      · simp at h

theorem check_nonce_nc_dims (d : DaemonNNC) (n : List Nat) (l t nc : Nat) :
    (check_nonce_nc d n l t nc).2.nonce_nc_size = d.nonce_nc_size ∧
    (check_nonce_nc d n l t nc).2.nnc.length = d.nnc.length := by
  unfold check_nonce_nc check_nonce_nc_slot
  dsimp only
  repeat' split
  all_goals simp

theorem bumpMask_testBit_jump (m j : Nat) (h1 : 1 ≤ j) (h2 : j ≤ 64) :
    (bumpMask m j).testBit (j - 1) = true := by
  unfold bumpMask
  split
  · simp [Nat.testBit_or, Nat.one_shiftLeft, Nat.testBit_two_pow_self]
  · next h3 =>
    rw [if_pos (by omega)]
    have hj : j - 1 = 63 := by omega
    rw [hj, Nat.one_shiftLeft]
    exact Nat.testBit_two_pow_self

theorem bumpMask_testBit_shift (m j i : Nat) (_h1 : 1 ≤ j) (hij : i + j < 64)
    (hm : m.testBit i = true) : (bumpMask m j).testBit (i + j) = true := by
  unfold bumpMask
  rw [if_pos (by omega)]
  rw [Nat.testBit_or, Nat.testBit_mod_two_pow, Nat.testBit_shiftLeft]
  have : i + j - j = i := by omega
  simp [this, hm, hij, Nat.le_add_left]

theorem check_ok_consumed (d : DaemonNNC) (n : List Nat) (l t nc : Nat)
    (hwf : d.nnc.length = d.nonce_nc_size)
    (h : (check_nonce_nc d n l t nc).1 = .OK) :
    consumedNc (check_nonce_nc d n l t nc).2 n l nc := by
  obtain ⟨hg1, hg2, hg3⟩ := check_nonce_nc_ok_guards d n l t nc h
  rw [check_nonce_nc_eq_slot d n l t nc hg1 hg2 hg3] at h ⊢
  obtain ⟨hmatch, hcases⟩ := check_slot_ok_cases d n l t nc h
  have hidx : nncIdx d n l < d.nnc.length := by
    rw [hwf]
    exact Nat.mod_lt _ (Nat.pos_of_ne_zero hg2)
  rcases hcases with hgt | ⟨hlt, hcond1, hcond2⟩
  · rw [check_slot_gt d n l t nc hmatch hgt]
    have hslot : slotOf (bumpState d n l nc) n l =
        ⟨(slotOf d n l).nonce, nc, bumpMask (slotOf d n l).nmask (nc - (slotOf d n l).nc)⟩ := by
      unfold slotOf bumpState nncIdx
      dsimp only
      rw [List.getD_eq_getElem?_getD, List.getElem?_set_self (by exact hidx)]
      rfl
    refine ⟨?_, ?_, ?_⟩
    · rw [hslot]
      exact ⟨hmatch.1, hmatch.2⟩
    · rw [hslot]
    · left; rw [hslot]
  · rw [check_slot_lt_free d n l t nc hmatch hlt ⟨hcond1, hcond2⟩]
    have hslot : slotOf (setBitState d n l nc) n l =
        ⟨(slotOf d n l).nonce, (slotOf d n l).nc,
          (slotOf d n l).nmask ||| (1 <<< ((slotOf d n l).nc - nc - 1))⟩ := by
      unfold slotOf setBitState nncIdx
      dsimp only
      rw [List.getD_eq_getElem?_getD, List.getElem?_set_self (by exact hidx)]
      rfl
    refine ⟨?_, ?_, ?_⟩
    · rw [hslot]
      exact ⟨hmatch.1, hmatch.2⟩
    · rw [hslot]; dsimp only; omega
    · right; right
      rw [hslot]
      simp [Nat.testBit_or, Nat.one_shiftLeft, Nat.testBit_two_pow_self]

theorem getD_set_self' (xs : List MHD_NonceNc) (i : Nat) (s : MHD_NonceNc)
    (h : i < xs.length) : (xs.set i s).getD i emptySlot = s := by
  rw [List.getD_eq_getElem?_getD, List.getElem?_set_self h]
  rfl

theorem getD_set_ne' (xs : List MHD_NonceNc) (i j : Nat) (s : MHD_NonceNc)
    (h : i ≠ j) : (xs.set i s).getD j emptySlot = xs.getD j emptySlot := by
  rw [List.getD_eq_getElem?_getD, List.getElem?_set_ne h, ← List.getD_eq_getElem?_getD]

theorem consumed_check_stale (d : DaemonNNC) (n : List Nat) (l t nc : Nat)
    (hco : consumedNc d n l nc)
    (h1 : l ≤ MAX_DIGEST_NONCE_LENGTH) (h2 : d.nonce_nc_size ≠ 0)
    (h3 : nc < UINT64_MAX - 64) :
    check_nonce_nc d n l t nc = (.STALE, d) := by
  obtain ⟨hm, hle, hdis⟩ := hco
  rw [check_nonce_nc_eq_slot d n l t nc h1 h2 h3]
  rcases Nat.eq_or_lt_of_le hle with heq | hlt
  · exact check_slot_eq_nc d n l t nc hm heq
  · apply check_slot_lt_used d n l t nc hm hlt
    rcases hdis with heq2 | hbig | hbit
    · omega
    · rintro ⟨hcc1, hcc2⟩; omega
    · rintro ⟨hcc1, hcc2⟩
      rw [one_shiftLeft_and_eq_zero_iff] at hcc2
      simp [hbit] at hcc2

theorem consumed_preserved (d : DaemonNNC) (n n' : List Nat) (l nc l' t' nc' : Nat)
    (hwf : d.nnc.length = d.nonce_nc_size)
    (hco : consumedNc d n l nc) :
    consumedNc (check_nonce_nc d n' l' t' nc').2 n l nc := by
  rcases check_nonce_nc_ok_or_frame d n' l' t' nc' with hok | hfr
  case inr => rw [hfr]; exact hco
  obtain ⟨hg1, hg2, hg3⟩ := check_nonce_nc_ok_guards d n' l' t' nc' hok
  rw [check_nonce_nc_eq_slot d n' l' t' nc' hg1 hg2 hg3] at hok ⊢
  obtain ⟨hmatch', hcases⟩ := check_slot_ok_cases d n' l' t' nc' hok
  have hidx' : nncIdx d n' l' < d.nnc.length := by
    rw [hwf]; exact Nat.mod_lt _ (Nat.pos_of_ne_zero hg2)
  obtain ⟨hm, hle, hdis⟩ := hco
  rcases hcases with hgt | ⟨hlt, hc1, hc2⟩
  · rw [check_slot_gt d n' l' t' nc' hmatch' hgt]
    by_cases hsame : nncIdx d n' l' = nncIdx d n l
    · have e0 : slotOf d n' l' = slotOf d n l := by
        unfold slotOf; rw [hsame]
      have e1 : slotOf (bumpState d n' l' nc') n l =
          ⟨(slotOf d n' l').nonce, nc',
            bumpMask (slotOf d n' l').nmask (nc' - (slotOf d n' l').nc)⟩ := by
        show (d.nnc.set (nncIdx d n' l') _).getD (nncIdx d n l) emptySlot = _
        rw [← hsame, getD_set_self' _ _ _ hidx']
      rw [e0] at e1 hgt
      refine ⟨?_, ?_, ?_⟩
      · rw [e1]; exact ⟨hm.1, hm.2⟩
      · rw [e1]; dsimp only; omega
      · rw [e1]; dsimp only
        by_cases hnceq : nc = (slotOf d n l).nc
        · by_cases hjle : nc' - (slotOf d n l).nc ≤ 64
          · right; right
            have e2 : nc' - nc - 1 = (nc' - (slotOf d n l).nc) - 1 := by omega
            rw [e2]
            exact bumpMask_testBit_jump (slotOf d n l).nmask
              (nc' - (slotOf d n l).nc) (by omega) hjle
          · right; left; omega
        · rcases hdis with h' | h' | h'
          · omega
          · right; left; omega
          · by_cases hbig : 64 < nc' - nc
            · right; left; omega
            · right; right
              have e2 : nc' - nc - 1 =
                  ((slotOf d n l).nc - nc - 1) + (nc' - (slotOf d n l).nc) := by omega
              rw [e2]
              exact bumpMask_testBit_shift (slotOf d n l).nmask
                (nc' - (slotOf d n l).nc) ((slotOf d n l).nc - nc - 1)
                (by omega) (by omega) h'
    · have e1 : slotOf (bumpState d n' l' nc') n l = slotOf d n l := by
        show (d.nnc.set (nncIdx d n' l') _).getD (nncIdx d n l) emptySlot = _
        rw [getD_set_ne' _ _ _ _ hsame]
        rfl
      exact ⟨by rw [e1]; exact hm, by rw [e1]; exact hle, by rw [e1]; exact hdis⟩
  · rw [check_slot_lt_free d n' l' t' nc' hmatch' hlt ⟨hc1, hc2⟩]
    by_cases hsame : nncIdx d n' l' = nncIdx d n l
    · have e0 : slotOf d n' l' = slotOf d n l := by
        unfold slotOf; rw [hsame]
      have e1 : slotOf (setBitState d n' l' nc') n l =
          ⟨(slotOf d n' l').nonce, (slotOf d n' l').nc,
            (slotOf d n' l').nmask ||| (1 <<< ((slotOf d n' l').nc - nc' - 1))⟩ := by
        show (d.nnc.set (nncIdx d n' l') _).getD (nncIdx d n l) emptySlot = _
        rw [← hsame, getD_set_self' _ _ _ hidx']
      rw [e0] at e1
      refine ⟨by rw [e1]; exact ⟨hm.1, hm.2⟩, by rw [e1]; dsimp only; exact hle, ?_⟩
      rw [e1]; dsimp only
      rcases hdis with h' | h' | h'
      · left; exact h'
      · right; left; exact h'
      · right; right
        simp [Nat.testBit_or, h']
    · have e1 : slotOf (setBitState d n' l' nc') n l = slotOf d n l := by
        show (d.nnc.set (nncIdx d n' l') _).getD (nncIdx d n l) emptySlot = _
        rw [getD_set_ne' _ _ _ _ hsame]
        rfl
      exact ⟨by rw [e1]; exact hm, by rw [e1]; exact hle, by rw [e1]; exact hdis⟩

theorem applyChecks_consumed (calls : List (List Nat × Nat × Nat × Nat))
    (d : DaemonNNC) (n : List Nat) (l nc : Nat)
    (hwf : d.nnc.length = d.nonce_nc_size)
    (hco : consumedNc d n l nc) :
    consumedNc (applyChecks d calls) n l nc ∧
    (applyChecks d calls).nnc.length = (applyChecks d calls).nonce_nc_size ∧
    (applyChecks d calls).nonce_nc_size = d.nonce_nc_size := by
  induction calls generalizing d with
  | nil => exact ⟨hco, hwf, rfl⟩
  | cons c rest ih =>
    obtain ⟨n', l', t', nc'⟩ := c
    have hdims := check_nonce_nc_dims d n' l' t' nc'
    have hwf' : (check_nonce_nc d n' l' t' nc').2.nnc.length =
        (check_nonce_nc d n' l' t' nc').2.nonce_nc_size := by
      rw [hdims.1, hdims.2, hwf]
    have hco' := consumed_preserved d n n' l nc l' t' nc' hwf hco
    obtain ⟨ha, hb, hc⟩ := ih _ hwf' hco'
    simp only [applyChecks]
    exact ⟨ha, hb, by rw [hc, hdims.1]⟩

theorem check_ok_then_stale (d : DaemonNNC) (n : List Nat) (l t nc : Nat)
    (hwf : d.nnc.length = d.nonce_nc_size)
    (hok : (check_nonce_nc d n l t nc).1 = .OK) (t2 : Nat) :
    check_nonce_nc (check_nonce_nc d n l t nc).2 n l t2 nc =
      (.STALE, (check_nonce_nc d n l t nc).2) := by
  obtain ⟨hg1, hg2, hg3⟩ := check_nonce_nc_ok_guards d n l t nc hok
  have hdims := check_nonce_nc_dims d n l t nc
  exact consumed_check_stale _ n l t2 nc
    (check_ok_consumed d n l t nc hwf hok) hg1 (by rw [hdims.1]; exact hg2) hg3

/-- C4: once a verification of `(nonce, nc)` has returned OK, every
subsequent verification of the same pair returns STALE regardless of the
nonce-nc checks performed in between (admissions, which overwrite slots, are
excluded by the claim): after the accepting call, any sequence of further
check_nonce_nc calls leaves the pair consumed, and re-checking it yields
STALE and leaves the table unchanged.  In particular (`calls = []`) an
immediately repeated check of the pair is STALE. -/
theorem claim_C4 (d : DaemonNNC) (n : List Nat) (l t nc : Nat)
    (calls : List (List Nat × Nat × Nat × Nat)) (t2 : Nat)
    (hwf : d.nnc.length = d.nonce_nc_size)
    (hok : (check_nonce_nc d n l t nc).1 = .OK) :
    check_nonce_nc (applyChecks (check_nonce_nc d n l t nc).2 calls) n l t2 nc =
      (.STALE, applyChecks (check_nonce_nc d n l t nc).2 calls) := by
  obtain ⟨hg1, hg2, hg3⟩ := check_nonce_nc_ok_guards d n l t nc hok
  have hdims := check_nonce_nc_dims d n l t nc
  have hwf' : (check_nonce_nc d n l t nc).2.nnc.length =
      (check_nonce_nc d n l t nc).2.nonce_nc_size := by
    rw [hdims.1, hdims.2, hwf]
  obtain ⟨hco, hwf2, hsz⟩ := applyChecks_consumed calls _ n l nc hwf'
    (check_ok_consumed d n l t nc hwf hok)
  exact consumed_check_stale _ n l t2 nc hco hg1
    (by rw [hsz, hdims.1]; exact hg2) hg3

/-- C4 witness: a concrete accepting check (slot freshly admitted, `nc = 1`)
followed by an intervening accepting check of `nc = 2`; re-checking
`(nonce, 1)` afterwards returns STALE. -/
theorem claim_C4_witness :
    check_nonce_nc
      (applyChecks (check_nonce_nc ⟨1, [⟨c2w_nonce ++ [0], 0, 0⟩]⟩ c2w_nonce 44 2 1).2
        [(c2w_nonce, 44, 2, 2)]) c2w_nonce 44 2 1 =
    (.STALE,
      applyChecks (check_nonce_nc ⟨1, [⟨c2w_nonce ++ [0], 0, 0⟩]⟩ c2w_nonce 44 2 1).2
        [(c2w_nonce, 44, 2, 2)]) :=
  claim_C4 ⟨1, [⟨c2w_nonce ++ [0], 0, 0⟩]⟩ c2w_nonce 44 2 1
    [(c2w_nonce, 44, 2, 2)] 2 (by decide) (by decide)

/-- C10: check_nonce_nc mutates the nonce-nc table only when it returns OK;
on STALE or WRONG the daemon state (every slot: nonce bytes, nc and nmask)
is returned exactly as it was. -/
theorem claim_C10 (d : DaemonNNC) (n : List Nat) (l t nc : Nat)
    (h : (check_nonce_nc d n l t nc).1 ≠ .OK) :
    (check_nonce_nc d n l t nc).2 = d :=
  (check_nonce_nc_ok_or_frame d n l t nc).resolve_left h

/-- C10 witness: a concrete rejected check (empty table slot, WRONG) leaves
the table untouched. -/
theorem claim_C10_witness :
    (check_nonce_nc ⟨1, [emptySlot]⟩ c1_client_nonce 44 50000 7).2 = ⟨1, [emptySlot]⟩ :=
  claim_C10 ⟨1, [emptySlot]⟩ c1_client_nonce 44 50000 7 (by decide)

/-- C2 (amended): when the slot holds the client's nonce and `nc > slot.nc`,
the check returns OK and sets `slot.nc = nc`; writing `jump = nc - slot.nc`,
the new nmask is zero only for `jump > 64`; for `jump = 64` it is `2^63`
(bit 63 records the old `slot.nc`); for `jump ≤ 64`, bit `i` of the new mask
is set exactly when `i = jump - 1` or bit `i - jump` was set before (the
mask shifted left by `jump` with bit `jump - 1` newly set). -/
theorem claim_C2 (d : DaemonNNC) (n : List Nat) (l t nc : Nat)
    (hwf : d.nnc.length = d.nonce_nc_size)
    (hl : l ≤ MAX_DIGEST_NONCE_LENGTH) (hsz : d.nonce_nc_size ≠ 0)
    (hnc : nc < UINT64_MAX - 64)
    (hmatch : slotMatches (slotOf d n l) n l)
    (hgt : (slotOf d n l).nc < nc) :
    (check_nonce_nc d n l t nc).1 = .OK
    ∧ (slotOf (check_nonce_nc d n l t nc).2 n l).nc = nc
    ∧ (64 < nc - (slotOf d n l).nc →
        (slotOf (check_nonce_nc d n l t nc).2 n l).nmask = 0)
    ∧ (nc - (slotOf d n l).nc = 64 →
        (slotOf (check_nonce_nc d n l t nc).2 n l).nmask = 2 ^ 63)
    ∧ (∀ i, i < 64 →
        ((slotOf (check_nonce_nc d n l t nc).2 n l).nmask.testBit i = true ↔
          (i = nc - (slotOf d n l).nc - 1 ∨
            (nc - (slotOf d n l).nc ≤ i ∧
              (slotOf d n l).nmask.testBit (i - (nc - (slotOf d n l).nc)) = true)))) := by
  rw [check_nonce_nc_eq_slot d n l t nc hl hsz hnc,
    check_slot_gt d n l t nc hmatch hgt]
  have hidx : nncIdx d n l < d.nnc.length := by
    rw [hwf]; exact Nat.mod_lt _ (Nat.pos_of_ne_zero hsz)
  have hslot : slotOf (bumpState d n l nc) n l =
      ⟨(slotOf d n l).nonce, nc, bumpMask (slotOf d n l).nmask (nc - (slotOf d n l).nc)⟩ := by
    show (d.nnc.set (nncIdx d n l) _).getD (nncIdx d n l) emptySlot = _
    rw [getD_set_self' _ _ _ hidx]
  refine ⟨rfl, by rw [hslot], ?_, ?_, ?_⟩
  · intro hbig
    rw [hslot]; dsimp only
    unfold bumpMask
    rw [if_neg (by omega), if_neg (by omega)]
  · intro h64
    rw [hslot]; dsimp only
    unfold bumpMask
    rw [if_neg (by omega), if_pos h64, Nat.one_shiftLeft]
  · intro i hi
    rw [hslot]; dsimp only
    unfold bumpMask
    by_cases hjc : nc - (slotOf d n l).nc < 64
    · rw [if_pos hjc]
      simp only [Nat.testBit_or, Nat.testBit_mod_two_pow, Nat.testBit_shiftLeft,
        Nat.one_shiftLeft, Nat.testBit_two_pow, Bool.or_eq_true, Bool.and_eq_true,
        decide_eq_true_eq, ge_iff_le]
      constructor
      · rintro (⟨hi64, hji, hbit⟩ | hji)
        · right; exact ⟨hji, hbit⟩
        · left; omega
      · rintro (hieq | ⟨hji, hbit⟩)
        · right; omega
        · exact Or.inl ⟨hi, hji, hbit⟩
    · by_cases hj64 : nc - (slotOf d n l).nc = 64
      · rw [if_neg hjc, if_pos hj64, Nat.one_shiftLeft, Nat.testBit_two_pow]
        simp only [decide_eq_true_eq]
        constructor
        · intro h63; left; omega
        · rintro (h63 | ⟨hji, _⟩) <;> omega
      · rw [if_neg hjc, if_neg hj64, Nat.zero_testBit]
        simp only [Bool.false_eq_true, false_iff, not_or, not_and]
        exact ⟨by omega, fun hji => by omega⟩

/-- C2 witness: a concrete in-window jump (`slot.nc = 1`, `nc = 3`) is
accepted and records the new counter. -/
theorem claim_C2_witness :
    (check_nonce_nc c2w_daemon c2w_nonce 44 2 3).1 = .OK
    ∧ (slotOf (check_nonce_nc c2w_daemon c2w_nonce 44 2 3).2 c2w_nonce 44).nc = 3 := by
  have h := claim_C2 c2w_daemon c2w_nonce 44 2 3 (by decide) (by decide) (by decide)
    (by decide) (by decide) (by decide)
  exact ⟨h.1, h.2.1⟩

/-- C3 (amended): the preemptive overflow guard rejects a request as STALE
exactly when `nc ≥ UINT64_MAX - 64 = 2^64 - 65`; any `nc` strictly below
that bound proceeds to the slot comparison. -/
theorem claim_C3 (d : DaemonNNC) (n : List Nat) (l t nc : Nat)
    (hl : l ≤ MAX_DIGEST_NONCE_LENGTH) (hsz : d.nonce_nc_size ≠ 0) :
    (2 ^ 64 - 65 ≤ nc → check_nonce_nc d n l t nc = (.STALE, d))
    ∧ (nc < 2 ^ 64 - 65 → check_nonce_nc d n l t nc = check_nonce_nc_slot d n l t nc)
    ∧ UINT64_MAX - 64 = 2 ^ 64 - 65 := by
  refine ⟨?_, ?_, by decide⟩
  · intro hge
    unfold check_nonce_nc
    rw [if_neg (by omega), if_neg hsz, if_pos (by unfold UINT64_MAX; omega)]
  · intro hlt
    exact check_nonce_nc_eq_slot d n l t nc hl hsz (by unfold UINT64_MAX; omega)

/-- C3 witness: a small `nc` passes the guard and the check is decided by
the slot comparison. -/
theorem claim_C3_witness :
    check_nonce_nc c3_daemon c3_nonce 44 3 1 = check_nonce_nc_slot c3_daemon c3_nonce 44 3 1 :=
  (claim_C3 c3_daemon c3_nonce 44 3 1 (by decide) (by decide)).2.1 (by decide)

/-- C5: when the slot holds the client's nonce and `nc < slot.nc`, the check
returns OK exactly when `slot.nc - nc ≤ 64` and bit `slot.nc - nc - 1` of
the slot's nmask is clear; on OK that bit is set and `slot.nc` is unchanged;
in every other case the check returns STALE and the table is unchanged. -/
theorem claim_C5 (d : DaemonNNC) (n : List Nat) (l t nc : Nat)
    (hwf : d.nnc.length = d.nonce_nc_size)
    (hl : l ≤ MAX_DIGEST_NONCE_LENGTH) (hsz : d.nonce_nc_size ≠ 0)
    (hnc : nc < UINT64_MAX - 64)
    (hmatch : slotMatches (slotOf d n l) n l)
    (hlt : nc < (slotOf d n l).nc) :
    ((check_nonce_nc d n l t nc).1 = .OK ↔
      ((slotOf d n l).nc - nc ≤ 64 ∧
        (slotOf d n l).nmask.testBit ((slotOf d n l).nc - nc - 1) = false))
    ∧ ((check_nonce_nc d n l t nc).1 = .OK →
        (slotOf (check_nonce_nc d n l t nc).2 n l).nmask.testBit
            ((slotOf d n l).nc - nc - 1) = true
        ∧ (slotOf (check_nonce_nc d n l t nc).2 n l).nc = (slotOf d n l).nc)
    ∧ ((check_nonce_nc d n l t nc).1 ≠ .OK →
        check_nonce_nc d n l t nc = (.STALE, d)) := by
  rw [check_nonce_nc_eq_slot d n l t nc hl hsz hnc]
  have hidx : nncIdx d n l < d.nnc.length := by
    rw [hwf]; exact Nat.mod_lt _ (Nat.pos_of_ne_zero hsz)
  by_cases hcond : nc + 64 ≥ (slotOf d n l).nc ∧
      (1 <<< ((slotOf d n l).nc - nc - 1)) &&& (slotOf d n l).nmask = 0
  · rw [check_slot_lt_free d n l t nc hmatch hlt hcond]
    have hslot : slotOf (setBitState d n l nc) n l =
        ⟨(slotOf d n l).nonce, (slotOf d n l).nc,
          (slotOf d n l).nmask ||| (1 <<< ((slotOf d n l).nc - nc - 1))⟩ := by
      show (d.nnc.set (nncIdx d n l) _).getD (nncIdx d n l) emptySlot = _
      rw [getD_set_self' _ _ _ hidx]
    refine ⟨?_, ?_, ?_⟩
    · constructor
      · intro _
        refine ⟨by omega, ?_⟩
        rw [← one_shiftLeft_and_eq_zero_iff]
        exact hcond.2
      · intro _; rfl
    · intro _
      rw [hslot]; dsimp only
      constructor
      · simp [Nat.testBit_or, Nat.one_shiftLeft, Nat.testBit_two_pow_self]
      · rfl
    · intro hno; exact absurd rfl hno
  · rw [check_slot_lt_used d n l t nc hmatch hlt hcond]
    refine ⟨?_, ?_, fun _ => rfl⟩
    · constructor
      · intro hh; simp at hh
      · rintro ⟨hw, hbit⟩
        exfalso
        exact hcond ⟨by omega, (one_shiftLeft_and_eq_zero_iff _ _).mpr hbit⟩
    · intro hh; simp at hh

/-- C5 witness: with `slot.nc = 5`, empty mask and client `nc = 3`, the
out-of-order check is accepted. -/
theorem claim_C5_witness :
    (check_nonce_nc c5_daemon c5_nonce 44 4 3).1 = .OK :=
  ((claim_C5 c5_daemon c5_nonce 44 4 3 (by decide) (by decide) (by decide)
    (by decide) (by decide) (by decide)).1).mpr (by decide)

/-- C6 counterexample: `nonce_timeout` is a C `unsigned int` and the product
`nonce_timeout * 1000` is computed in 32-bit unsigned arithmetic.  With
`nonce_timeout = 4294968` the product 4294968000 wraps modulo `2^32` to 704,
so a nonce aged 1000 ms is rejected as NONCE_STALE although its age does not
exceed `nonce_timeout · 1000` computed exactly — contradicting the claim. -/
theorem c6_overflow_counterexample :
    nonce_too_old 1000 0 4294968 = true
    ∧ ¬ (TRIM_TO_TIMESTAMP (usub64 1000 0) > 4294968 * 1000)
    ∧ (4294968 : Nat) < 2 ^ 32 := by decide

/-- C6 (amended): the expiry gate rejects exactly when the 48-bit modular age
exceeds `(nonce_timeout * 1000) % 2^32` (the product is computed in the C
type `unsigned int`).  Whenever `nonce_timeout * 1000 < 2^32` — in particular
for every timeout up to 4294967 seconds — the threshold is the claimed
`nonce_timeout · 1000`: an age of exactly the threshold passes the gate and
an age of threshold + 1 is rejected as NONCE_STALE. -/
theorem claim_C6 (now ts nonce_timeout : Nat) :
    (nonce_too_old now ts nonce_timeout = true ↔
      TRIM_TO_TIMESTAMP (usub64 now ts) > (nonce_timeout * 1000) % 2 ^ 32)
    ∧ (nonce_timeout * 1000 < 2 ^ 32 →
        ((nonce_too_old now ts nonce_timeout = true ↔
          TRIM_TO_TIMESTAMP (usub64 now ts) > nonce_timeout * 1000)
        ∧ (TRIM_TO_TIMESTAMP (usub64 now ts) = nonce_timeout * 1000 →
            nonce_too_old now ts nonce_timeout = false)
        ∧ (TRIM_TO_TIMESTAMP (usub64 now ts) = nonce_timeout * 1000 + 1 →
            nonce_too_old now ts nonce_timeout = true))) := by
  unfold nonce_too_old
  refine ⟨by simp, ?_⟩
  intro hno
  rw [Nat.mod_eq_of_lt hno]
  refine ⟨by simp, ?_, ?_⟩ <;> intro he <;> simp [he]

/-- C6 witness: with the default-style timeout of 60 s there is no overflow;
an age of 60001 ms is rejected while 60000 ms would pass. -/
theorem claim_C6_witness :
    (60 * 1000 < 2 ^ 32) ∧ nonce_too_old 61001 1000 60 = true :=
  ⟨by decide, ((claim_C6 61001 1000 60).2 (by decide)).1.mpr (by decide)⟩

/-- C8 counterexample: the qop gate compares with `strcmp` on the
zero-terminated copy, so a qop value whose bytes are `auth` followed by a NUL
byte is accepted although its bytes equal neither `"auth"` nor the empty
string — the claim's "exactly when its bytes equal" fails on it.  (Per the
specification's data model, §3, parameter values may contain any byte.) -/
theorem c8_nul_counterexample :
    qop_is_supported [97, 117, 116, 104, 0] = true
    ∧ [97, 117, 116, 104, 0] ≠ [97, 117, 116, 104]
    ∧ [97, 117, 116, 104, 0] ≠ ([] : List Nat) := by decide

/-- C8 (amended): the verifier accepts the unquoted qop exactly when its
bytes before the first NUL equal `"auth"` (case-sensitively) or are empty;
for NUL-free values this is exact byte equality with `"auth"` or the empty
string.  Case variants such as `"Auth"` and the value `"auth-int"` are
rejected (yielding WRONG_HEADER in the verifier). -/
theorem claim_C8 :
    (∀ qop : List Nat, qop_is_supported qop = true ↔
      (cstr qop = [97, 117, 116, 104] ∨ cstr qop = []))
    ∧ (∀ qop : List Nat, 0 ∉ qop →
        (qop_is_supported qop = true ↔ (qop = [97, 117, 116, 104] ∨ qop = [])))
    ∧ qop_is_supported [65, 117, 116, 104] = false
    ∧ qop_is_supported [97, 117, 116, 104, 45, 105, 110, 116] = false := by
  have hall : ∀ qop : List Nat, qop_is_supported qop = true ↔
      (cstr qop = [97, 117, 116, 104] ∨ cstr qop = []) := by
    intro q
    unfold qop_is_supported
    simp
  refine ⟨hall, ?_, by decide, by decide⟩
  intro q hq
  have hcq : cstr q = q := by
    unfold cstr
    apply List.takeWhile_eq_self_iff.mpr
    intro a ha
    simp only [ne_eq, decide_eq_true_eq]
    intro h0
    exact hq (h0 ▸ ha)
  rw [hall q, hcq]

/-- C8 witness: the case variant `"Auth"` is NUL-free and is accepted only if
it equals `"auth"` or is empty — hence rejected. -/
theorem claim_C8_witness :
    qop_is_supported [65, 117, 116, 104] = true ↔
      ([65, 117, 116, 104] = [97, 117, 116, 104] ∨
        [65, 117, 116, 104] = ([] : List Nat)) :=
  claim_C8.2.1 [65, 117, 116, 104] (by decide)

theorem MHD_bin_to_hex_length (bs : List Nat) :
    (MHD_bin_to_hex bs).length = 2 * bs.length := by
  induction bs with
  | nil => rfl
  | cons b rest ih =>
    unfold MHD_bin_to_hex at ih ⊢
    simp only [List.map_cons, List.flatten_cons, List.length_append, List.length_cons]
    rw [ih]
    simp only [List.length_cons, List.length_nil]
    omega

theorem hexDigitChar_lower (v : Nat) (h : v < 16) :
    isLowerHexChar (hexDigitChar v) := by
  unfold hexDigitChar isLowerHexChar
  split <;> omega

theorem MHD_bin_to_hex_chars (bs : List Nat) (hb : ∀ b ∈ bs, b < 256) :
    ∀ c ∈ MHD_bin_to_hex bs, isLowerHexChar c := by
  intro c hc
  unfold MHD_bin_to_hex at hc
  simp only [List.mem_flatten, List.mem_map] at hc
  obtain ⟨l, ⟨b, hbmem, rfl⟩, hcl⟩ := hc
  have hb' := hb b hbmem
  simp only [List.mem_cons, List.not_mem_nil, or_false] at hcl
  rcases hcl with rfl | rfl
  · exact hexDigitChar_lower _ (by omega)
  · exact hexDigitChar_lower _ (by omega)

theorem ts_be48_val (t : Nat) : beBytesVal (ts_be48 t) = t % 2 ^ 48 := by
  unfold beBytesVal ts_be48
  simp only [List.foldl_cons, List.foldl_nil, Nat.shiftRight_eq_div_pow]
  omega

/-- C7: for every input tuple, calculate_nonce emits exactly
`2 * digest_size` lowercase-hex characters of the digest of
`ts_be48 ‖ ":" ‖ method ‖ ":" ‖ seed ‖ ":" ‖ uri ‖ ":" ‖ realm` followed by
exactly 12 lowercase-hex characters that encode the low 48 bits of the
timestamp in big-endian order (`ts_be48` is the 48-bit big-endian encoding,
and its big-endian value is `t % 2^48`).  The hash is an abstract engine
returning `digest_size` bytes; the C code reads `method` and `uri` as
zero-terminated strings, which `nonce_msg` reflects. -/
theorem claim_C7 (H : List Nat → List Nat) (digest_size t : Nat)
    (method rnd uri realm : List Nat)
    (hlen : (H (nonce_msg t method rnd uri realm)).length = digest_size)
    (hbytes : ∀ b ∈ H (nonce_msg t method rnd uri realm), b < 256) :
    calculate_nonce H digest_size t method rnd uri realm =
      MHD_bin_to_hex (H (nonce_msg t method rnd uri realm)) ++
        MHD_bin_to_hex (ts_be48 t)
    ∧ (calculate_nonce H digest_size t method rnd uri realm).length =
        2 * digest_size + 12
    ∧ (∀ c ∈ (calculate_nonce H digest_size t method rnd uri realm).take
        (2 * digest_size), isLowerHexChar c)
    ∧ (calculate_nonce H digest_size t method rnd uri realm).drop
        (2 * digest_size) = MHD_bin_to_hex (ts_be48 t)
    ∧ (∀ c ∈ MHD_bin_to_hex (ts_be48 t), isLowerHexChar c)
    ∧ (MHD_bin_to_hex (ts_be48 t)).length = 12
    ∧ beBytesVal (ts_be48 t) = t % 2 ^ 48 := by
  have htake : (H (nonce_msg t method rnd uri realm)).take digest_size =
      H (nonce_msg t method rnd uri realm) :=
    List.take_of_length_le (le_of_eq hlen)
  have heq : calculate_nonce H digest_size t method rnd uri realm =
      MHD_bin_to_hex (H (nonce_msg t method rnd uri realm)) ++
        MHD_bin_to_hex (ts_be48 t) := by
    unfold calculate_nonce
    rw [htake]
  have hlen1 : (MHD_bin_to_hex (H (nonce_msg t method rnd uri realm))).length =
      2 * digest_size := by
    rw [MHD_bin_to_hex_length, hlen]
  have hts6 : (ts_be48 t).length = 6 := rfl
  have hlen2 : (MHD_bin_to_hex (ts_be48 t)).length = 12 := by
    rw [MHD_bin_to_hex_length, hts6]
  refine ⟨heq, ?_, ?_, ?_, ?_, hlen2, ts_be48_val t⟩
  · rw [heq, List.length_append, hlen1, hlen2]
  · intro c hc
    rw [heq, ← hlen1, List.take_left] at hc
    exact MHD_bin_to_hex_chars _ hbytes c hc
  · rw [heq, ← hlen1, List.drop_left]
  · intro c hc
    refine MHD_bin_to_hex_chars _ ?_ c hc
    intro b hb
    unfold ts_be48 at hb
    simp only [List.mem_cons, List.not_mem_nil, or_false] at hb
    rcases hb with rfl | rfl | rfl | rfl | rfl | rfl <;> omega

/-- C7 witness: a concrete instantiation with a constant 16-byte digest. -/
theorem claim_C7_witness :
    calculate_nonce (fun _ => List.replicate 16 171) 16 1 [71] [48] [47] [114] =
      MHD_bin_to_hex (List.replicate 16 171) ++ MHD_bin_to_hex (ts_be48 1) :=
  (claim_C7 (fun _ => List.replicate 16 171) 16 1 [71] [48] [47] [114]
    (by decide) (by decide)).1

theorem stage_pre_ts_no_wrong_uri (env : VerifyEnv) (ps : MHD_RqDAuth) :
    stage_pre_ts env ps ≠ .error .MHD_DAUTH_WRONG_URI := by
  unfold stage_pre_ts
  repeat' split
  all_goals simp

theorem stage_post_ts_no_wrong_uri (env : VerifyEnv) (ps : MHD_RqDAuth)
    (pd : PreTsData) :
    stage_post_ts env ps pd ≠ .error .MHD_DAUTH_WRONG_URI := by
  unfold stage_post_ts
  repeat' split
  all_goals intro hx
  all_goals simp_all [ite_eq_iff]

/-- C9: when a verification fails at the URI comparison with WRONG_URI, the
nonce-nc advance has already been committed: repeating the verification with
the same parameters against the resulting table state yields NONCE_STALE
(either from the expiry gate at the later clock reading, or because the
consumed `(nonce, nc)` pair is rejected by the nonce-nc check before the URI
check is reached), and the table state is not modified further. -/
theorem claim_C9 (env : VerifyEnv) (ps : MHD_RqDAuth) (d : DaemonNNC)
    (now now2 : Nat)
    (hwf : d.nnc.length = d.nonce_nc_size)
    (h : (digest_auth_check_all env (some ps) d now).1 = .MHD_DAUTH_WRONG_URI) :
    digest_auth_check_all env (some ps)
        ((digest_auth_check_all env (some ps) d now).2) now2 =
      (.MHD_DAUTH_NONCE_STALE, (digest_auth_check_all env (some ps) d now).2) := by
  unfold digest_auth_check_all at h
  dsimp only at h
  cases hpre : stage_pre_ts env ps with
  | error e =>
    rw [hpre] at h
    dsimp only at h
    rw [h] at hpre
    exact absurd hpre (stage_pre_ts_no_wrong_uri env ps)
  | ok pd =>
    rw [hpre] at h
    dsimp only at h
    by_cases hgate : nonce_too_old now pd.nonce_time env.nonce_timeout = true
    · rw [if_pos hgate] at h
      simp at h
    · rw [if_neg hgate] at h
      cases hpost : stage_post_ts env ps pd with
      | error e =>
        rw [hpost] at h
        dsimp only at h
        rw [h] at hpost
        exact absurd hpost (stage_post_ts_no_wrong_uri env ps pd)
      | ok gd =>
        rw [hpost] at h
        dsimp only at h
        cases hchk : (check_nonce_nc d gd.noncehashexp
            (NONCE_STD_LEN env.digest_size) pd.nonce_time gd.nci).1 with
        | STALE => rw [hchk] at h; dsimp only at h; simp at h
        | WRONG => rw [hchk] at h; dsimp only at h; simp at h
        | OK =>
          have hstate : (digest_auth_check_all env (some ps) d now).2 =
              (check_nonce_nc d gd.noncehashexp
                (NONCE_STD_LEN env.digest_size) pd.nonce_time gd.nci).2 := by
            unfold digest_auth_check_all
            dsimp only
            rw [hpre]
            dsimp only
            rw [if_neg hgate, hpost]
            dsimp only
            rw [hchk]
          rw [hstate]
          have hstale := check_ok_then_stale d gd.noncehashexp
            (NONCE_STD_LEN env.digest_size) pd.nonce_time gd.nci hwf hchk
            pd.nonce_time
          unfold digest_auth_check_all
          dsimp only
          rw [hpre]
          dsimp only
          by_cases hgate2 : nonce_too_old now2 pd.nonce_time env.nonce_timeout = true
          · rw [if_pos hgate2]
          · rw [if_neg hgate2, hpost]
            dsimp only
            rw [hstale]

/-- C9 witness: a concrete verification against a freshly admitted nonce
fails at the URI comparison (authorization uri `/a` vs connection URL `/b`),
and the immediate repetition returns NONCE_STALE. -/
theorem claim_C9_witness :
    digest_auth_check_all c9_env (some c9_params)
        ((digest_auth_check_all c9_env (some c9_params) c9_daemon 5).2) 5 =
      (.MHD_DAUTH_NONCE_STALE,
        (digest_auth_check_all c9_env (some c9_params) c9_daemon 5).2) :=
  claim_C9 c9_env c9_params c9_daemon 5 5 (by decide) (by decide)
